import Mathlib

/-!
# Realtime chat client (`src/App.jsx`, `src/main.jsx`)

A shallow embedding of the two React sources of the repository.  Both files define the
components `App`, `AuthComponent` and `ChatLayout`; they differ in a few places, so the
definitions below take the source file as a parameter (`Variant`).

* React state (`useState`) is an explicit record; a state setter is a record update.
* An effect (`useEffect`) is a function from the values it closes over to the backend calls
  it issues; its cleanup closure is kept in the state of the step function.
* The backend client (`supabase`) is the environment: every call made on it is recorded in a
  trace, and every answer it gives (query results, insert outcomes, change-feed events) is an
  input of the step function.
-/

namespace DC

/-! ## Data model -/

/-- The source file a definition is taken from. -/
inductive Variant where
  | appJsx
  | mainJsx
  deriving DecidableEq, Repr

/-- The variables read from `import.meta.env`; a variable that is not set is `undefined`,
modelled by `none`. -/
structure Env where
  VITE_SUPABASE_URL : Option String
  VITE_SUPABASE_ANON_KEY : Option String
  deriving DecidableEq, Repr

/-- JavaScript truthiness of a value that is a string or `undefined`: the empty string and
`undefined` are falsy, every other string is truthy. -/
def truthy : Option String → Bool
  | none => false
  | some s => s != ""

/-- The `user` object carried by a session. -/
structure User where
  id : String
  email : String
  deriving DecidableEq, Repr

/-- A session object as handed out by the backend; `null` is `none : Option Session`. -/
structure Session where
  user : User
  deriving DecidableEq, Repr

/-- A row of the `channels` table. -/
structure Channel where
  id : String
  name : String
  description : String
  deriving DecidableEq, Repr

/-- A row of the `messages` table; `created_at` is the creation timestamp. -/
structure Message where
  id : String
  channel_id : String
  user_id : String
  content : String
  created_at : Nat
  deriving DecidableEq, Repr

/-- The object passed to `insert` by `handleSendMessage`. -/
structure MessageRecord where
  content : String
  channel_id : String
  user_id : String
  deriving DecidableEq, Repr

/-- An error object returned by the backend. -/
structure BackendError where
  message : String
  deriving DecidableEq, Repr

/-- The object `{ data, error }` a table query resolves to.  The sources branch on `error`
and read `data` only when `error` is falsy. -/
structure QueryResult (α : Type) where
  data : List α
  error : Option BackendError

/-- A table query built with `from(table).select('*')`, optionally followed by
`.eq(column, value)` and `.order(column)` (ascending). -/
structure Query where
  table : String
  eq : Option (String × String)
  order : Option String
  deriving DecidableEq, Repr

/-- A change-feed subscription: the topic given to `supabase.channel` and the object given to
`.on('postgres_changes', ...)`; `filter` is the value of the `filter` key when the object has
one, as the pair (column, value) of a `column=eq.value` filter. -/
structure Subscription where
  topic : String
  event : String
  schema : String
  table : String
  filter : Option (String × String)
  deriving DecidableEq, Repr

/-- A row change announced by the backend: the kind of change, where it happened, and the new
row (`payload.new`). -/
structure Change where
  event : String
  schema : String
  table : String
  new : Message
  deriving DecidableEq, Repr

/-- The calls the sources make on the backend client. -/
inductive BackendCall where
  | getSession
  | onAuthStateChanged
  | signInWithOtp (email : String)
  | signOut
  | select (q : Query)
  | insert (table : String) (record : MessageRecord)
  | subscribe (s : Subscription)
  | removeChannel (s : Subscription)
  deriving DecidableEq, Repr

/-! ## `App` -/

/-- State of `App`: `useState(null)` and `useState(true)`. -/
structure AppState where
  session : Option Session
  loading : Bool
  deriving DecidableEq, Repr

/-- The initial state of `App`. -/
def AppState.init : AppState := ⟨none, true⟩

/-- What `App` returns: one of its four JSX results. -/
inductive View where
  | missingKeysError
  | loadingSpinner
  | authComponent
  | chatLayout (key : String) (session : Session)
  deriving DecidableEq, Repr

/-- One run of the function `App`: the view it returns and whether the run reached its
`useEffect` call (so that the effect is run after the render is committed). -/
structure Rendered where
  view : View
  effect : Bool
  deriving DecidableEq, Repr

/-- The function `App`.  In `App.jsx` the check of the two variables comes before `useEffect`;
`main.jsx` has no such check. -/
def App (v : Variant) (env : Env) (st : AppState) : Rendered :=
  let body : Rendered :=
    if st.loading then ⟨.loadingSpinner, true⟩
    else
      match st.session with
      | none => ⟨.authComponent, true⟩
      | some s => ⟨.chatLayout s.user.id s, true⟩
  match v with
  | .appJsx =>
    if !truthy env.VITE_SUPABASE_URL || !truthy env.VITE_SUPABASE_ANON_KEY then
      ⟨.missingKeysError, false⟩
    else body
  | .mainJsx => body

/-- The backend calls of the effect of `App`, in order. -/
def appEffectCalls : List BackendCall := [.getSession, .onAuthStateChanged]

/-- The query of `fetchChannels`. -/
def channelsQuery : Query := ⟨"channels", none, none⟩

/-- The backend calls issued by the effects of `ChatLayout` when it is mounted: its state is
the initial one, so `activeChannel` is `null`, the two effects depending on it return early,
and only `fetchChannels` calls the backend. -/
def chatLayoutMountCalls : List BackendCall := [.select channelsQuery]

/-- The backend calls issued by the effects of a view when it is mounted.  `MissingKeysError`
and the spinner have no effect; `AuthComponent` calls the backend only from `handleLogin`. -/
def viewMountCalls : View → List BackendCall
  | .missingKeysError => []
  | .loadingSpinner => []
  | .authComponent => []
  | .chatLayout _ _ => chatLayoutMountCalls

/-- The backend calls issued when the tree returned by `App` is committed for the first time:
the effects of the child run before the effect of `App`. -/
def treeCalls (v : Variant) (env : Env) (st : AppState) : List BackendCall :=
  let r := App v env st
  viewMountCalls r.view ++ (if r.effect then appEffectCalls else [])

/-- The continuation given to `getSession().then`. -/
def getSessionThen (st : AppState) (session : Option Session) : AppState :=
  { st with session := session, loading := false }

/-- The handler given to `onAuthStateChanged`. -/
def authHandler (v : Variant) (st : AppState) (event : String) (session : Option Session) :
    AppState :=
  match v with
  | .appJsx =>
    let st1 := { st with session := session }
    if event == "SIGNED_IN" then { st1 with loading := false } else st1
  | .mainJsx => { st with session := session }

/-! ## `ChatLayout` -/

/-- State of `ChatLayout`: its four `useState` cells. -/
structure ChatState where
  channels : List Channel
  activeChannel : Option Channel
  messages : List Message
  newMessage : String
  deriving DecidableEq, Repr

/-- The initial state of `ChatLayout`. -/
def ChatState.init : ChatState := ⟨[], none, [], ""⟩

/-- The code points removed by `String.prototype.trim`: the white space and line terminator
characters of ECMAScript. -/
def isJsWhiteSpace (c : Char) : Bool :=
  let n := c.toNat
  n == 0x09 || n == 0x0A || n == 0x0B || n == 0x0C || n == 0x0D || n == 0x20 || n == 0xA0 ||
  n == 0x1680 || (0x2000 ≤ n && n ≤ 0x200A) || n == 0x2028 || n == 0x2029 || n == 0x202F ||
  n == 0x205F || n == 0x3000 || n == 0xFEFF

/-- The method `trim` on a list of characters. -/
def trimChars (cs : List Char) : List Char :=
  ((cs.dropWhile isJsWhiteSpace).reverse.dropWhile isJsWhiteSpace).reverse

/-- The method `trim` of a string. -/
def jsTrim (s : String) : String := ⟨trimChars s.data⟩

/-- The query of `fetchMessages` for a channel; both files build the same one (`order`
sorts ascending when no direction is given). -/
def messagesQuery (c : Channel) : Query :=
  ⟨"messages", some ("channel_id", c.id), some "created_at"⟩

/-- The subscription built by the realtime effect for the active channel.  `App.jsx` passes
`filter: channel_id=eq.<id>`; the object passed by `main.jsx` has no `filter` key. -/
def realtimeSubscription (v : Variant) (c : Channel) : Subscription :=
  { topic := "public:messages:channel_id=eq." ++ c.id
    event := "INSERT"
    schema := "public"
    table := "messages"
    filter :=
      match v with
      | .appJsx => some ("channel_id", c.id)
      | .mainJsx => none }

/-- The handler of the realtime effect: `setMessages(cur => [...cur, payload.new])`. -/
def onInsert (currentMessages : List Message) (payload : Change) : List Message :=
  currentMessages ++ [payload.new]

/-- The continuation of `fetchChannels` after the query is answered. -/
def fetchChannelsThen (st : ChatState) (r : QueryResult Channel) : ChatState :=
  match r.error with
  | some _ => st
  | none =>
    let st1 := { st with channels := r.data }
    if r.data.length > 0 then { st1 with activeChannel := r.data.head? } else st1

/-- The messages effect: it returns early when `activeChannel` is `null`, else it starts
`fetchMessages`, which issues one query. -/
def fetchMessagesEffect (activeChannel : Option Channel) : List BackendCall :=
  match activeChannel with
  | none => []
  | some c => [.select (messagesQuery c)]

/-- The continuation of `fetchMessages` after the query is answered. -/
def fetchMessagesThen (st : ChatState) (r : QueryResult Message) : ChatState :=
  match r.error with
  | some _ => st
  | none => { st with messages := r.data }

/-- The realtime effect: it returns early when `activeChannel` is `null`, else it opens one
subscription, which its cleanup closure removes. -/
def realtimeEffect (v : Variant) (activeChannel : Option Channel) : Option Subscription :=
  match activeChannel with
  | none => none
  | some c => some (realtimeSubscription v c)

/-- The function `handleSendMessage`, run to its end: `insertError` is the `error` field of
what the insert resolves to (it is read only when the insert is issued).  The result is the
state afterwards and the backend calls made.  `App.jsx` clears the input in the branch where
`error` is falsy; `main.jsx` does not read `error` and clears the input after the call. -/
def handleSendMessage (v : Variant) (session : Session) (st : ChatState)
    (insertError : Option BackendError) : ChatState × List BackendCall :=
  let content := jsTrim st.newMessage
  match content != "", st.activeChannel with
  | true, some c =>
    let call := BackendCall.insert "messages"
      { content := content, channel_id := c.id, user_id := session.user.id }
    match v with
    | .appJsx =>
      match insertError with
      | some _ => (st, [call])
      | none => ({ st with newMessage := "" }, [call])
    | .mainJsx => ({ st with newMessage := "" }, [call])
  | _, _ => (st, [])

/-! ## The backend and the life of a mounted `ChatLayout` -/

/-- The value of a text column of a message row. -/
def Message.column (m : Message) : String → Option String
  | "id" => some m.id
  | "channel_id" => some m.channel_id
  | "user_id" => some m.user_id
  | "content" => some m.content
  | _ => none

/-- Modelled from the spec: the change feed of the backend, which is not code of the
repository (section 6: `subscribe(topic, filter) -> stream of inserted rows`).  A change is
handed to the handler of a subscription when the event, schema and table of the subscription
are those of the change and, when the subscription has a filter `column=eq.value`, the new row
has that value in that column.  The topic string plays no part. -/
def delivers (s : Subscription) (ch : Change) : Bool :=
  s.event == ch.event && s.schema == ch.schema && s.table == ch.table &&
  match s.filter with
  | none => true
  | some (col, val) => ch.new.column col == some val

/-- The message list after a change has been handed to the handler of every open subscription
that it matches. -/
def deliver (subs : List Subscription) (ch : Change) (ms : List Message) : List Message :=
  subs.foldl (fun acc s => if delivers s ch then onInsert acc ch else acc) ms

/-- A mounted `ChatLayout` together with the backend client: the component state, the cleanup
closure left by the last run of the realtime effect (the subscription it will remove), the
subscriptions open at the client, the queries not yet answered, and the calls made so far. -/
structure World where
  ui : ChatState
  cleanup : Option Subscription
  subs : List Subscription
  channelsPending : Bool
  messagesPending : List String
  trace : List BackendCall
  deriving DecidableEq, Repr

/-- The world right after `ChatLayout` is mounted: `fetchChannels` has issued its query, the
other effects have returned early. -/
def World.init : World :=
  { ui := ChatState.init
    cleanup := none
    subs := []
    channelsPending := true
    messagesPending := []
    trace := chatLayoutMountCalls }

/-- Run the cleanup closure of the realtime effect, when there is one:
`supabase.removeChannel(subscription)`. -/
def runCleanup (w : World) : World :=
  match w.cleanup with
  | none => w
  | some s =>
    { w with cleanup := none, subs := w.subs.erase s, trace := w.trace ++ [.removeChannel s] }

/-- Run the two effects that depend on `activeChannel`, in the order they are declared. -/
def runEffects (v : Variant) (w : World) : World :=
  let w1 : World :=
    match w.ui.activeChannel with
    | none => w
    | some c =>
      { w with messagesPending := w.messagesPending ++ [c.id]
               trace := w.trace ++ fetchMessagesEffect (some c) }
  match realtimeEffect v w1.ui.activeChannel with
  | none => w1
  | some s => { w1 with cleanup := some s, subs := w1.subs ++ [s], trace := w1.trace ++ [.subscribe s] }

/-- Commit a new component state.  When `activeChannel` is the value it was, the effects that
depend on it are not run again; when it has changed, the cleanup of the previous run is
executed first and then the effects run for the new value.  React compares the dependency by
object identity; every channel handed to `setActiveChannel` is a row of the one array the
channels query returned, so two of them are the same object when they are the same row. -/
def commit (v : Variant) (w : World) (next : ChatState) : World :=
  if next.activeChannel = w.ui.activeChannel then { w with ui := next }
  else runEffects v { runCleanup w with ui := next }

/-- What can happen to a mounted `ChatLayout`. -/
inductive Event where
  | channelsResult (r : QueryResult Channel)
  | click (c : Channel)
  | messagesResult (channelId : String) (r : QueryResult Message)
  | change (ch : Change)
  | input (text : String)
  | submit (insertError : Option BackendError)

/-- One event.  The channels query is answered once; only the channels of the list have a
button; an answer belongs to a query that was issued; the form exists only while a channel is
active.  An event that cannot happen leaves the world as it is. -/
def step (v : Variant) (session : Session) (w : World) : Event → World
  | .channelsResult r =>
    if w.channelsPending then
      commit v { w with channelsPending := false } (fetchChannelsThen w.ui r)
    else w
  | .click c =>
    if c ∈ w.ui.channels then commit v w { w.ui with activeChannel := some c } else w
  | .messagesResult channelId r =>
    if channelId ∈ w.messagesPending then
      { w with messagesPending := w.messagesPending.erase channelId
               ui := fetchMessagesThen w.ui r }
    else w
  | .change ch =>
    { w with ui := { w.ui with messages := deliver w.subs ch w.ui.messages } }
  | .input text =>
    if w.ui.activeChannel.isSome then { w with ui := { w.ui with newMessage := text } } else w
  | .submit insertError =>
    if w.ui.activeChannel.isSome then
      let r := handleSendMessage v session w.ui insertError
      { w with ui := r.1, trace := w.trace ++ r.2 }
    else w

/-- The world after a list of events, starting from the mount. -/
def run (v : Variant) (session : Session) (es : List Event) : World :=
  es.foldl (step v session) World.init

/-- The state machine of the realtime bridge as the spec words it (section 4.3): from
unattached, `attach` leads to attached; from attached, `detach` of that subscription leads to
unattached; `attach` while attached is illegal, and so is a `detach` of anything else.  Calls
other than `subscribe` and `removeChannel` do not move it.  `none` is the illegal move. -/
def bridgeStep (attached : Option Subscription) : BackendCall → Option (Option Subscription)
  | .subscribe s =>
    match attached with
    | none => some (some s)
    | some _ => none
  | .removeChannel s =>
    match attached with
    | none => none
    | some t => if s = t then some none else none
  | _ => some attached

/-- Run the bridge state machine over a list of calls. -/
def bridgeRun (attached : Option Subscription) : List BackendCall → Option (Option Subscription)
  | [] => some attached
  | c :: cs =>
    match bridgeStep attached c with
    | none => none
    | some a => bridgeRun a cs

/-! ## Concrete values used in the closed statements -/

/-- A session of user `u1`. -/
def sessionU : Session := ⟨⟨"u1", "u1@example.org"⟩⟩

/-- Channel `A`. -/
def channelA : Channel := ⟨"A", "general", ""⟩

/-- Channel `B`. -/
def channelB : Channel := ⟨"B", "random", ""⟩

/-- A message of channel `A`. -/
def messageA : Message := ⟨"m1", "A", "u2", "hi", 5⟩

/-- A message of channel `B`. -/
def messageB : Message := ⟨"m2", "B", "u2", "yo", 7⟩

/-- The backend announces the insertion of a row into `public.messages`. -/
def insertOf (m : Message) : Change := ⟨"INSERT", "public", "messages", m⟩

/-- The invariant of a mounted `ChatLayout`: the subscriptions open at the client are exactly
the one the pending cleanup will remove, that one is the subscription of the active channel,
and the calls made so far are a legal run of the bridge state machine ending there. -/
def Inv (v : Variant) (w : World) : Prop :=
  w.subs = w.cleanup.toList ∧
  w.cleanup = realtimeEffect v w.ui.activeChannel ∧
  bridgeRun none w.trace = some w.cleanup

/-- Before a channel is active nothing has been asked of the backend but the channel list. -/
def Idle (w : World) : Prop :=
  w.ui.activeChannel = none →
    w.trace = chatLayoutMountCalls ∧ w.messagesPending = [] ∧ w.subs = []

/-! ## Module evaluation and session restore -/

/-- The calls made while the top level of a source file is evaluated. -/
inductive ModuleCall where
  | createClient (supabaseUrl supabaseAnonKey : Option String)
  deriving DecidableEq, Repr

/-- Evaluation of the top level of a source file, after the two variables are read.  In
`App.jsx` the block of `if (!supabaseUrl || !supabaseAnonKey)` holds comments only, so it makes
no call and does not leave the module; the statement after it, in both files, is
`const supabase = createClient(supabaseUrl, supabaseAnonKey)`. -/
def moduleInit (v : Variant) (env : Env) : List ModuleCall :=
  let safeguard : List ModuleCall :=
    match v with
    | .appJsx =>
      if !truthy env.VITE_SUPABASE_URL || !truthy env.VITE_SUPABASE_ANON_KEY then [] else []
    | .mainJsx => []
  safeguard ++ [.createClient env.VITE_SUPABASE_URL env.VITE_SUPABASE_ANON_KEY]

/-- The object under the key `data` of what `getSession()` resolves to. -/
structure SessionData where
  session : Option Session
  deriving DecidableEq, Repr

/-- How the promise returned by `getSession()` settles: fulfilled with an object
`{ data, error }` (`data` is `none` when it is `null`), or rejected with a reason. -/
inductive GetSessionOutcome where
  | fulfilled (data : Option SessionData) (error : Option BackendError)
  | rejected (reason : BackendError)
  deriving DecidableEq, Repr

/-- Where the chain `getSession().then(callback)` ends: the state of `App`, and whether the
chain ended rejected, which no handler catches (the effect attaches none). -/
structure Settled where
  state : AppState
  unhandledRejection : Bool
  deriving DecidableEq, Repr

/-- The chain `getSession().then(({ data: { session } }) => ...)` of the effect of `App`, the
same in both files.  `then` is given the fulfilment callback only: a rejection skips it.  The
parameter pattern reads `session` out of `data`, which throws when `data` is `null`, before
either setter is called.  The key `error` is not read. -/
def getSessionSettled (st : AppState) : GetSessionOutcome → Settled
  | .fulfilled (some d) _ => ⟨getSessionThen st d.session, false⟩
  | .fulfilled none _ => ⟨st, true⟩
  | .rejected _ => ⟨st, true⟩

/-! ## Order of the message list -/

/-- A message list is non-decreasing by `created_at`. -/
def nonDecreasing (ms : List Message) : Prop :=
  ms.Pairwise (fun a b => a.created_at ≤ b.created_at)

instance instDecidableNonDecreasing (ms : List Message) : Decidable (nonDecreasing ms) := by
  unfold nonDecreasing
  infer_instance

/-- The answer to a messages query, when it is a success, has its rows in non-decreasing
order of `created_at`. -/
def fetchOrdered : Event → Prop
  | .messagesResult _ r => r.error = none → nonDecreasing r.data
  | _ => True

/-- Every successful fetch of a list of events returns ordered rows. -/
def fetchesOrdered (es : List Event) : Prop := ∀ e ∈ es, fetchOrdered e

/-- A change-feed event that an open subscription delivers carries a row that is not older
than any message held at that moment. -/
def feedOrdered (w : World) : Event → Prop
  | .change ch =>
    (∃ s ∈ w.subs, delivers s ch = true) → ∀ m ∈ w.ui.messages, m.created_at ≤ ch.new.created_at
  | _ => True

/-- Every change-feed event of a run is `feedOrdered` in the state it arrives in. -/
def feedOrderedRun (v : Variant) (session : Session) : World → List Event → Prop
  | _, [] => True
  | w, e :: es => feedOrdered w e ∧ feedOrderedRun v session (step v session w e) es

/-- A message of channel `A` created before `messageA`. -/
def messageOld : Message := ⟨"m0", "A", "u3", "earlier", 3⟩

/-! ## Theorems about `App` -/

theorem truthy_eq_false_iff (x : Option String) :
    truthy x = false ↔ x = none ∨ x = some "" := by
  cases x with
  | none => simp [truthy]
  | some s => simp [truthy]

/-- C1: when the backend URL or the public key is undefined or the empty string, `App` of
`App.jsx` returns the configuration-error view, in every state, and the committed tree issues
no backend call at all. -/
theorem C1_missing_config_renders_error (env : Env) (st : AppState)
    (h : (env.VITE_SUPABASE_URL = none ∨ env.VITE_SUPABASE_URL = some "") ∨
         (env.VITE_SUPABASE_ANON_KEY = none ∨ env.VITE_SUPABASE_ANON_KEY = some "")) :
    (App .appJsx env st).view = .missingKeysError ∧
    (App .appJsx env st).effect = false ∧
    treeCalls .appJsx env st = [] := by
  have hc : (!truthy env.VITE_SUPABASE_URL || !truthy env.VITE_SUPABASE_ANON_KEY) = true := by
    rcases h with h | h
    · have := (truthy_eq_false_iff _).2 h
      simp [this]
    · have := (truthy_eq_false_iff _).2 h
      simp [this]
  simp [treeCalls, App, hc, viewMountCalls]

theorem C1_missing_config_renders_error_witness :
    (App .appJsx ⟨none, none⟩ AppState.init).view = .missingKeysError ∧
    (App .appJsx ⟨none, none⟩ AppState.init).effect = false ∧
    treeCalls .appJsx ⟨none, none⟩ AppState.init = [] :=
  C1_missing_config_renders_error ⟨none, none⟩ AppState.init (Or.inl (Or.inl rfl))

/-- C2: with both variables present, `App` of `App.jsx` returns the chat view only when
`loading` is false and the session is non-null (and then for that session); with no session
and `loading` false it returns the login view; and from every state, the state left by the
auth handler on a `SIGNED_IN` event with a non-null session renders the chat view. -/
theorem C2_session_gating (env : Env) (st : AppState)
    (hu : truthy env.VITE_SUPABASE_URL = true) (hk : truthy env.VITE_SUPABASE_ANON_KEY = true) :
    (∀ k s, (App .appJsx env st).view = .chatLayout k s →
        st.loading = false ∧ st.session = some s ∧ k = s.user.id) ∧
    (st.session = none → st.loading = false → (App .appJsx env st).view = .authComponent) ∧
    (∀ s, (App .appJsx env (authHandler .appJsx st "SIGNED_IN" (some s))).view =
        .chatLayout s.user.id s) := by
  refine ⟨?_, ?_, ?_⟩
  · intro k s hv
    cases hl : st.loading <;> cases hs : st.session <;>
      simp [App, hu, hk, hl, hs] at hv
    obtain ⟨h1, h2⟩ := hv
    subst h2
    exact ⟨rfl, rfl, h1.symm⟩
  · intro hs hl
    simp [App, hu, hk, hl, hs]
  · intro s
    simp [App, authHandler, hu, hk]

theorem C2_session_gating_witness :
    (∀ k s, (App .appJsx ⟨some "u", some "k"⟩ AppState.init).view = .chatLayout k s →
        AppState.init.loading = false ∧ AppState.init.session = some s ∧ k = s.user.id) ∧
    (AppState.init.session = none → AppState.init.loading = false →
        (App .appJsx ⟨some "u", some "k"⟩ AppState.init).view = .authComponent) ∧
    (∀ s, (App .appJsx ⟨some "u", some "k"⟩
        (authHandler .appJsx AppState.init "SIGNED_IN" (some s))).view =
        .chatLayout s.user.id s) :=
  C2_session_gating ⟨some "u", some "k"⟩ AppState.init (by decide) (by decide)


/-! ## Invariants of a mounted `ChatLayout` -/

theorem bridgeRun_append (a : Option Subscription) (t u : List BackendCall) :
    bridgeRun a (t ++ u) = (bridgeRun a t).bind (fun b => bridgeRun b u) := by
  induction t generalizing a with
  | nil => simp [bridgeRun]
  | cons c cs ih =>
    simp only [List.cons_append, bridgeRun]
    cases h : bridgeStep a c with
    | none => simp
    | some b => simp [ih]

theorem inv_init (v : Variant) : Inv v World.init := by
  simp [Inv, World.init, realtimeEffect, ChatState.init, chatLayoutMountCalls, bridgeRun,
    bridgeStep]

theorem inv_commit (v : Variant) (w : World) (next : ChatState) (h : Inv v w) :
    Inv v (commit v w next) := by
  obtain ⟨h1, h2, h3⟩ := h
  unfold commit
  split
  · next heq => exact ⟨h1, by simpa [heq] using h2, h3⟩
  · cases hc : w.cleanup with
    | none =>
      cases hn : next.activeChannel with
      | none =>
        simp [Inv, runEffects, runCleanup, hc, hn, realtimeEffect] at *
        exact ⟨h1, h3⟩
      | some c =>
        simp [Inv, runEffects, runCleanup, hc, hn, realtimeEffect, fetchMessagesEffect,
          bridgeRun_append, bridgeRun, bridgeStep] at *
        simp [h1, h3, bridgeRun, bridgeStep]
    | some s =>
      cases hn : next.activeChannel with
      | none =>
        simp [Inv, runEffects, runCleanup, hc, hn, realtimeEffect, bridgeRun_append, bridgeRun,
          bridgeStep] at *
        simp [h1, h3, bridgeRun, bridgeStep]
      | some c =>
        simp [Inv, runEffects, runCleanup, hc, hn, realtimeEffect, fetchMessagesEffect,
          bridgeRun_append, bridgeRun, bridgeStep] at *
        simp [h1, h3, bridgeRun, bridgeStep]

theorem handleSendMessage_frame (v : Variant) (session : Session) (st : ChatState)
    (e : Option BackendError) :
    (handleSendMessage v session st e).1.channels = st.channels ∧
    (handleSendMessage v session st e).1.activeChannel = st.activeChannel ∧
    (handleSendMessage v session st e).1.messages = st.messages := by
  cases v <;> cases e <;> simp only [handleSendMessage] <;> split <;> simp_all

theorem handleSendMessage_calls (v : Variant) (session : Session) (st : ChatState)
    (e : Option BackendError) :
    (handleSendMessage v session st e).2 = [] ∨
    ∃ r, (handleSendMessage v session st e).2 = [.insert "messages" r] := by
  cases v <;> cases e <;> simp only [handleSendMessage] <;> split <;> simp_all

theorem fetchMessagesThen_active (st : ChatState) (r : QueryResult Message) :
    (fetchMessagesThen st r).activeChannel = st.activeChannel := by
  unfold fetchMessagesThen
  cases r.error <;> rfl

theorem inv_step (v : Variant) (session : Session) (w : World) (e : Event) (h : Inv v w) :
    Inv v (step v session w e) := by
  cases e with
  | channelsResult r =>
    simp only [step]
    split
    · exact inv_commit v _ _ h
    · exact h
  | click c =>
    simp only [step]
    split
    · exact inv_commit v _ _ h
    · exact h
  | messagesResult cid r =>
    simp only [step]
    split
    · obtain ⟨h1, h2, h3⟩ := h
      exact ⟨h1, by simpa [fetchMessagesThen_active] using h2, h3⟩
    · exact h
  | change ch => exact h
  | input text =>
    simp only [step]
    split
    · exact h
    · exact h
  | submit e =>
    simp only [step]
    split
    · obtain ⟨h1, h2, h3⟩ := h
      refine ⟨h1, ?_, ?_⟩
      · simpa [(handleSendMessage_frame v session w.ui e).2.1] using h2
      · rcases handleSendMessage_calls v session w.ui e with hc | ⟨r, hc⟩
        · simpa [hc] using h3
        · simp [hc, bridgeRun_append, h3, bridgeRun, bridgeStep]
    · exact h

theorem inv_foldl (v : Variant) (session : Session) (es : List Event) (w : World)
    (h : Inv v w) : Inv v (es.foldl (step v session) w) := by
  induction es generalizing w with
  | nil => exact h
  | cons e es ih => exact ih _ (inv_step v session w e h)

theorem inv_run (v : Variant) (session : Session) (es : List Event) :
    Inv v (run v session es) :=
  inv_foldl v session es _ (inv_init v)

theorem commit_ui (v : Variant) (w : World) (next : ChatState) :
    (commit v w next).ui = next := by
  unfold commit
  split
  · rfl
  · cases hc : w.cleanup <;> cases hn : next.activeChannel <;>
      simp [runEffects, runCleanup, hc, hn, realtimeEffect]

theorem fetchChannelsThen_active_none (st : ChatState) (r : QueryResult Channel)
    (h : (fetchChannelsThen st r).activeChannel = none) : st.activeChannel = none := by
  unfold fetchChannelsThen at h
  cases he : r.error with
  | some e => simpa [he] using h
  | none =>
    cases hd : r.data with
    | nil => simpa [he, hd] using h
    | cons c cs => simp [he, hd] at h

theorem idle_init : Idle World.init := by
  intro _
  simp [World.init]

theorem idle_step (v : Variant) (session : Session) (w : World) (e : Event) (h : Idle w) :
    Idle (step v session w e) := by
  intro hn
  cases e with
  | channelsResult r =>
    simp only [step] at hn ⊢
    split at hn
    · next hp =>
      rw [commit_ui] at hn
      have h0 := fetchChannelsThen_active_none _ _ hn
      simp only [hp, if_true]
      have heq : (fetchChannelsThen w.ui r).activeChannel = w.ui.activeChannel := by
        rw [hn, h0]
      simpa [commit, heq] using h h0
    · next hp =>
      simpa [hp] using h hn
  | click c =>
    simp only [step] at hn ⊢
    split at hn
    · rw [commit_ui] at hn
      simp at hn
    · next hp => simpa [hp] using h hn
  | messagesResult cid r =>
    simp only [step] at hn ⊢
    split at hn
    · next hp =>
      rw [fetchMessagesThen_active] at hn
      simp [(h hn).2.1] at hp
    · next hp => simpa [hp] using h hn
  | change ch => exact h hn
  | input text =>
    simp only [step] at hn ⊢
    split at hn
    · next hp =>
      simp at hn
      simp [hn] at hp
    · next hp => simpa [hp] using h hn
  | submit e =>
    simp only [step] at hn ⊢
    split at hn
    · next hp =>
      simp only [(handleSendMessage_frame v session w.ui e).2.1] at hn
      simp [hn] at hp
    · next hp => simpa [hp] using h hn

theorem idle_run (v : Variant) (session : Session) (es : List Event) :
    Idle (run v session es) := by
  have key : ∀ (l : List Event) (w : World), Idle w → Idle (l.foldl (step v session) w) := by
    intro l
    induction l with
    | nil => intro w hw; exact hw
    | cons e l ih => intro w hw; exact ih _ (idle_step v session w e hw)
  exact key es _ idle_init

theorem subs_of_active (v : Variant) (w : World) (c : Channel) (h : Inv v w)
    (hc : w.ui.activeChannel = some c) : w.subs = [realtimeSubscription v c] := by
  obtain ⟨h1, h2, _⟩ := h
  rw [h1, h2, hc]
  rfl

theorem step_change_delivered (v : Variant) (session : Session) (w : World) (c : Channel)
    (h : Inv v w) (hc : w.ui.activeChannel = some c) (ch : Change)
    (hd : delivers (realtimeSubscription v c) ch = true) :
    (step v session w (.change ch)).ui.messages = w.ui.messages ++ [ch.new] ∧
    (step v session w (.change ch)).ui.activeChannel = some c := by
  simp [step, subs_of_active v w c h hc, deliver, hd, onInsert, hc]

theorem foldl_change_delivered (v : Variant) (session : Session) (c : Channel)
    (chs : List Change) (w : World) (h : Inv v w) (hc : w.ui.activeChannel = some c)
    (hd : ∀ ch ∈ chs, delivers (realtimeSubscription v c) ch = true) :
    ((chs.map Event.change).foldl (step v session) w).ui.messages =
      w.ui.messages ++ chs.map (fun ch => ch.new) := by
  induction chs generalizing w with
  | nil => simp
  | cons ch chs ih =>
    have h1 := step_change_delivered v session w c h hc ch (hd ch (List.mem_cons_self _ _))
    have h2 := ih (step v session w (.change ch)) (inv_step v session w _ h) h1.2
      (fun x hx => hd x (List.mem_cons_of_mem _ hx))
    simp only [List.map_cons, List.foldl_cons]
    rw [h2, h1.1]
    simp

/-! ## The change feed -/

/-- C3: in every reachable state with an active channel, an event delivered by the
subscription of that channel makes the message list `ms ++ [e.new]` (the handler itself maps
`ms` to `ms ++ [e.new]`), and a list of such events delivered in order makes it
`ms ++ [e1.new, ..., en.new]`. -/
theorem C3_insert_appends_in_arrival_order (v : Variant) (session : Session)
    (es : List Event) (c : Channel)
    (hc : (run v session es).ui.activeChannel = some c) :
    (∀ ms e, onInsert ms e = ms ++ [e.new]) ∧
    (∀ ch, delivers (realtimeSubscription v c) ch = true →
      (step v session (run v session es) (.change ch)).ui.messages =
        (run v session es).ui.messages ++ [ch.new]) ∧
    (∀ chs : List Change, (∀ ch ∈ chs, delivers (realtimeSubscription v c) ch = true) →
      ((chs.map Event.change).foldl (step v session) (run v session es)).ui.messages =
        (run v session es).ui.messages ++ chs.map (fun ch => ch.new)) := by
  refine ⟨fun _ _ => rfl, ?_, ?_⟩
  · intro ch hd
    exact (step_change_delivered v session _ c (inv_run v session es) hc ch hd).1
  · intro chs hd
    exact foldl_change_delivered v session c chs _ (inv_run v session es) hc hd

theorem C3_insert_appends_in_arrival_order_witness :
    (run .appJsx sessionU [.channelsResult ⟨[channelA], none⟩]).ui.activeChannel =
      some channelA ∧
    delivers (realtimeSubscription .appJsx channelA) (insertOf messageA) = true ∧
    (step .appJsx sessionU (run .appJsx sessionU [.channelsResult ⟨[channelA], none⟩])
      (.change (insertOf messageA))).ui.messages =
      (run .appJsx sessionU [.channelsResult ⟨[channelA], none⟩]).ui.messages ++ [messageA] :=
  ⟨by decide, by decide,
    (C3_insert_appends_in_arrival_order .appJsx sessionU [.channelsResult ⟨[channelA], none⟩]
      channelA (by decide)).2.1 (insertOf messageA) (by decide)⟩

theorem appJsx_delivers_iff (c : Channel) (ch : Change) :
    delivers (realtimeSubscription .appJsx c) ch = true ↔
      ch.event = "INSERT" ∧ ch.schema = "public" ∧ ch.table = "messages" ∧
        ch.new.channel_id = c.id := by
  have hcol : ch.new.column "channel_id" = some ch.new.channel_id := rfl
  simp only [delivers, realtimeSubscription, hcol, Bool.and_eq_true, beq_iff_eq,
    Option.some.injEq]
  constructor
  · rintro ⟨⟨⟨h1, h2⟩, h3⟩, h4⟩
    exact ⟨h1.symm, h2.symm, h3.symm, h4⟩
  · rintro ⟨h1, h2, h3, h4⟩
    exact ⟨⟨⟨h1.symm, h2.symm⟩, h3.symm⟩, h4⟩

theorem appJsx_other_channel_ignored (session : Session) (es : List Event) (c : Channel)
    (ch : Change) (hc : (run .appJsx session es).ui.activeChannel = some c)
    (hne : ch.new.channel_id ≠ c.id) :
    (step .appJsx session (run .appJsx session es) (.change ch)).ui =
      (run .appJsx session es).ui := by
  have hd : delivers (realtimeSubscription .appJsx c) ch = false := by
    cases h : delivers (realtimeSubscription .appJsx c) ch with
    | false => rfl
    | true => exact absurd ((appJsx_delivers_iff c ch).1 h).2.2.2 hne
  simp [step, subs_of_active .appJsx _ c (inv_run .appJsx session es) hc, deliver, hd]

/-- C4: in every reachable state of the `ChatLayout` of `App.jsx` at most one subscription is
open; an open subscription is scoped to the active channel `c`: it is the subscription to
`INSERT` on `public.messages` with topic and filter `channel_id=eq.<c.id>`, and it delivers
exactly the inserted rows whose `channel_id` is `c.id`; with a channel active that one
subscription is open.  The calls made so far never attach while attached (they are a legal run
of the bridge state machine), and a click on another channel `b` while `a` is active first
removes the subscription filtered on `a.id`, then queries and subscribes with the filter on
`b.id`. -/
theorem C4_one_subscription_detach_before_attach (session : Session) (es : List Event) :
    (run .appJsx session es).subs.length ≤ 1 ∧
    (∀ s ∈ (run .appJsx session es).subs,
      ∃ c, (run .appJsx session es).ui.activeChannel = some c ∧
        s = ⟨"public:messages:channel_id=eq." ++ c.id, "INSERT", "public", "messages",
              some ("channel_id", c.id)⟩ ∧
        (∀ ch, delivers s ch = true ↔
          ch.event = "INSERT" ∧ ch.schema = "public" ∧ ch.table = "messages" ∧
            ch.new.channel_id = c.id)) ∧
    (∀ c, (run .appJsx session es).ui.activeChannel = some c →
      (run .appJsx session es).subs =
        [⟨"public:messages:channel_id=eq." ++ c.id, "INSERT", "public", "messages",
          some ("channel_id", c.id)⟩]) ∧
    bridgeRun none (run .appJsx session es).trace = some (run .appJsx session es).subs.head? ∧
    (∀ a b, (run .appJsx session es).ui.activeChannel = some a →
      b ∈ (run .appJsx session es).ui.channels → b ≠ a →
      (step .appJsx session (run .appJsx session es) (.click b)).trace =
        (run .appJsx session es).trace ++
          [.removeChannel ⟨"public:messages:channel_id=eq." ++ a.id, "INSERT", "public",
              "messages", some ("channel_id", a.id)⟩,
           .select ⟨"messages", some ("channel_id", b.id), some "created_at"⟩,
           .subscribe ⟨"public:messages:channel_id=eq." ++ b.id, "INSERT", "public",
              "messages", some ("channel_id", b.id)⟩] ∧
      (step .appJsx session (run .appJsx session es) (.click b)).subs =
        [⟨"public:messages:channel_id=eq." ++ b.id, "INSERT", "public", "messages",
          some ("channel_id", b.id)⟩] ∧
      (step .appJsx session (run .appJsx session es) (.click b)).ui.activeChannel = some b) := by
  have hinv := inv_run .appJsx session es
  obtain ⟨h1, h2, h3⟩ := hinv
  have hlit : ∀ c : Channel, realtimeSubscription .appJsx c =
      ⟨"public:messages:channel_id=eq." ++ c.id, "INSERT", "public", "messages",
        some ("channel_id", c.id)⟩ := fun _ => rfl
  refine ⟨?_, ?_, ?_, ?_, ?_⟩
  · rw [h1]
    cases (run .appJsx session es).cleanup <;> simp
  · intro s hs
    rw [h1, h2] at hs
    cases ha : (run .appJsx session es).ui.activeChannel with
    | none => simp [ha, realtimeEffect] at hs
    | some c =>
      simp only [ha, realtimeEffect, Option.toList, List.mem_singleton] at hs
      subst hs
      exact ⟨c, rfl, hlit c, appJsx_delivers_iff c⟩
  · intro c hc
    rw [subs_of_active .appJsx _ c ⟨h1, h2, h3⟩ hc, hlit]
  · rw [h3, h1]
    cases (run .appJsx session es).cleanup <;> simp
  · intro a b ha hb hne
    have hsub := subs_of_active .appJsx _ a ⟨h1, h2, h3⟩ ha
    have hcl : (run .appJsx session es).cleanup = some (realtimeSubscription .appJsx a) := by
      rw [h2, ha]
      rfl
    have hne2 : ¬ (some b = (run .appJsx session es).ui.activeChannel) := by
      rw [ha]
      simpa using hne
    rw [← hlit a, ← hlit b]
    simp [step, hb, commit, hne2, runCleanup, hcl, runEffects, realtimeEffect,
      fetchMessagesEffect, hsub, messagesQuery]

theorem C4_one_subscription_detach_before_attach_witness :
    (step .appJsx sessionU
        (run .appJsx sessionU [.channelsResult ⟨[channelA, channelB], none⟩])
        (.click channelB)).trace =
      (run .appJsx sessionU [.channelsResult ⟨[channelA, channelB], none⟩]).trace ++
        [.removeChannel ⟨"public:messages:channel_id=eq.A", "INSERT", "public", "messages",
            some ("channel_id", "A")⟩,
         .select ⟨"messages", some ("channel_id", "B"), some "created_at"⟩,
         .subscribe ⟨"public:messages:channel_id=eq.B", "INSERT", "public", "messages",
            some ("channel_id", "B")⟩] ∧
    (step .appJsx sessionU
        (run .appJsx sessionU [.channelsResult ⟨[channelA, channelB], none⟩])
        (.click channelB)).subs =
      [⟨"public:messages:channel_id=eq.B", "INSERT", "public", "messages",
        some ("channel_id", "B")⟩] ∧
    (step .appJsx sessionU
        (run .appJsx sessionU [.channelsResult ⟨[channelA, channelB], none⟩])
        (.click channelB)).ui.activeChannel = some channelB :=
  (C4_one_subscription_detach_before_attach sessionU
    [.channelsResult ⟨[channelA, channelB], none⟩]).2.2.2.2 channelA channelB
    (by decide) (by decide) (by decide)

/-- C5 (`main.jsx`): the subscription of `main.jsx` has no filter; with channel `B` active, the
insertion of a message of channel `A` is delivered and appended to the visible list. -/
theorem C5_mainJsx_appends_other_channel :
    (run .mainJsx sessionU
      [.channelsResult ⟨[channelA, channelB], none⟩, .click channelB]).ui.activeChannel =
      some channelB ∧
    (run .mainJsx sessionU
      [.channelsResult ⟨[channelA, channelB], none⟩, .click channelB]).ui.messages = [] ∧
    messageA.channel_id ≠ channelB.id ∧
    (realtimeSubscription .mainJsx channelB).filter = none ∧
    delivers (realtimeSubscription .mainJsx channelB) (insertOf messageA) = true ∧
    (run .mainJsx sessionU
      [.channelsResult ⟨[channelA, channelB], none⟩, .click channelB,
       .change (insertOf messageA)]).ui.messages = [messageA] := by
  decide

/-! ## `handleSendMessage` -/

theorem handleSendMessage_of_ready (v : Variant) (session : Session) (st : ChatState)
    (c : Channel) (e : Option BackendError) (ht : jsTrim st.newMessage ≠ "")
    (hc : st.activeChannel = some c) :
    handleSendMessage v session st e =
      (match v, e with
        | .appJsx, some _ => st
        | _, _ => { st with newMessage := "" },
       [.insert "messages" ⟨jsTrim st.newMessage, c.id, session.user.id⟩]) := by
  have hb : (jsTrim st.newMessage != "") = true := by simpa using ht
  cases v <;> cases e <;> simp [handleSendMessage, hb, hc]

theorem handleSendMessage_of_not_ready (v : Variant) (session : Session) (st : ChatState)
    (e : Option BackendError) (h : jsTrim st.newMessage = "" ∨ st.activeChannel = none) :
    handleSendMessage v session st e = (st, []) := by
  cases v <;> cases e <;> simp only [handleSendMessage] <;> split <;> simp_all

/-- C6, as stated, fails on `App.jsx`: with the text `hello`, an active channel and an insert
that returns an error, the input field still holds text after `handleSendMessage`. -/
theorem C6_appJsx_error_keeps_input :
    jsTrim "hello" ≠ "" ∧
    (handleSendMessage .appJsx sessionU ⟨[channelA], some channelA, [], "hello"⟩
      (some ⟨"insert failed"⟩)).1.newMessage = "hello" := by
  decide

/-- C6, amended: for a text whose trimmed form is non-empty and an active channel, after
`handleSendMessage` the input field is empty for every outcome of the insert in `main.jsx`;
in `App.jsx` it is empty when the insert succeeds and the state is left as it was when the
insert returns an error. -/
theorem C6_input_cleared_unless_appJsx_insert_error (session : Session) (st : ChatState)
    (c : Channel) (ht : jsTrim st.newMessage ≠ "") (hc : st.activeChannel = some c) :
    (∀ e, (handleSendMessage .mainJsx session st e).1.newMessage = "") ∧
    (handleSendMessage .appJsx session st none).1.newMessage = "" ∧
    (∀ err, (handleSendMessage .appJsx session st (some err)).1 = st) := by
  refine ⟨?_, ?_, ?_⟩
  · intro e
    rw [handleSendMessage_of_ready .mainJsx session st c e ht hc]
  · rw [handleSendMessage_of_ready .appJsx session st c none ht hc]
  · intro err
    rw [handleSendMessage_of_ready .appJsx session st c (some err) ht hc]

theorem C6_input_cleared_unless_appJsx_insert_error_witness :
    jsTrim "hello" ≠ "" ∧
    ((∀ e, (handleSendMessage .mainJsx sessionU ⟨[channelA], some channelA, [], "hello"⟩
        e).1.newMessage = "") ∧
     (handleSendMessage .appJsx sessionU ⟨[channelA], some channelA, [], "hello"⟩
        none).1.newMessage = "" ∧
     (∀ err, (handleSendMessage .appJsx sessionU ⟨[channelA], some channelA, [], "hello"⟩
        (some err)).1 = ⟨[channelA], some channelA, [], "hello"⟩)) :=
  ⟨by decide,
    C6_input_cleared_unless_appJsx_insert_error sessionU ⟨[channelA], some channelA, [], "hello"⟩
      channelA (by decide) rfl⟩

/-- C7: `handleSendMessage` issues a backend call exactly when the trimmed text is non-empty
and a channel is active; it is then the single insert into `messages` of the record
`{content: trim(t), channel_id: activeChannel.id, user_id: session.user.id}`; otherwise no call
is made and the state is unchanged. -/
theorem C7_insert_iff_text_and_channel (v : Variant) (session : Session) (st : ChatState)
    (e : Option BackendError) :
    ((handleSendMessage v session st e).2 ≠ [] ↔
      jsTrim st.newMessage ≠ "" ∧ st.activeChannel ≠ none) ∧
    (∀ c, jsTrim st.newMessage ≠ "" → st.activeChannel = some c →
      (handleSendMessage v session st e).2 =
        [.insert "messages" ⟨jsTrim st.newMessage, c.id, session.user.id⟩]) ∧
    (jsTrim st.newMessage = "" ∨ st.activeChannel = none →
      handleSendMessage v session st e = (st, [])) := by
  refine ⟨?_, ?_, ?_⟩
  · constructor
    · intro hne
      by_contra hcon
      have hor : jsTrim st.newMessage = "" ∨ st.activeChannel = none := by
        by_cases ht : jsTrim st.newMessage = ""
        · exact Or.inl ht
        · right
          by_contra hc
          exact hcon ⟨ht, hc⟩
      rw [handleSendMessage_of_not_ready v session st e hor] at hne
      exact hne rfl
    · rintro ⟨ht, hc⟩
      cases hs : st.activeChannel with
      | none => exact absurd hs hc
      | some c =>
        rw [handleSendMessage_of_ready v session st c e ht hs]
        simp
  · intro c ht hc
    rw [handleSendMessage_of_ready v session st c e ht hc]
  · intro h
    exact handleSendMessage_of_not_ready v session st e h

theorem C7_insert_iff_text_and_channel_witness :
    (handleSendMessage .appJsx sessionU ⟨[channelA], some channelA, [], " hello "⟩ none).2 =
      [.insert "messages" ⟨"hello", "A", "u1"⟩] ∧
    handleSendMessage .appJsx sessionU ⟨[channelA], some channelA, [], "  "⟩ none =
      (⟨[channelA], some channelA, [], "  "⟩, []) :=
  ⟨(C7_insert_iff_text_and_channel .appJsx sessionU ⟨[channelA], some channelA, [], " hello "⟩
      none).2.1 channelA (by decide) rfl,
   (C7_insert_iff_text_and_channel .appJsx sessionU ⟨[channelA], some channelA, [], "  "⟩
      none).2.2 (Or.inl (by decide))⟩

/-- C8: `handleSendMessage` leaves the message list, the channel list and the active channel
as they were, in both files and for every outcome of the insert; and an event of a mounted
`ChatLayout` that changes the message list is a change-feed event or the answer to a messages
query. -/
theorem C8_send_does_not_append (v : Variant) (session : Session) :
    (∀ st e, (handleSendMessage v session st e).1.messages = st.messages ∧
      (handleSendMessage v session st e).1.channels = st.channels ∧
      (handleSendMessage v session st e).1.activeChannel = st.activeChannel) ∧
    (∀ w e, (step v session w (.submit e)).ui.messages = w.ui.messages) ∧
    (∀ w ev, (step v session w ev).ui.messages ≠ w.ui.messages →
      (∃ ch, ev = .change ch) ∨ (∃ cid r, ev = .messagesResult cid r)) := by
  have hsubmit : ∀ w e, (step v session w (.submit e)).ui.messages = w.ui.messages := by
    intro w e
    simp only [step]
    split
    · exact (handleSendMessage_frame v session w.ui e).2.2
    · rfl
  refine ⟨?_, hsubmit, ?_⟩
  · intro st e
    obtain ⟨h1, h2, h3⟩ := handleSendMessage_frame v session st e
    exact ⟨h3, h1, h2⟩
  · intro w ev hne
    cases ev with
    | change ch => exact Or.inl ⟨ch, rfl⟩
    | messagesResult cid r => exact Or.inr ⟨cid, r, rfl⟩
    | submit e => exact absurd (hsubmit w e) hne
    | input text =>
      exfalso
      apply hne
      simp only [step]
      split <;> rfl
    | click c =>
      exfalso
      apply hne
      simp only [step]
      split
      · rw [commit_ui]
      · rfl
    | channelsResult r =>
      exfalso
      apply hne
      simp only [step]
      split
      · rw [commit_ui]
        unfold fetchChannelsThen
        cases r.error with
        | some e => rfl
        | none =>
          simp only
          split <;> rfl
      · rfl

/-! ## The two fetches -/

theorem commit_channelsPending (v : Variant) (w : World) (next : ChatState) :
    (commit v w next).channelsPending = w.channelsPending := by
  unfold commit
  split
  · rfl
  · cases hc : w.cleanup <;> cases hn : next.activeChannel <;>
      simp [runEffects, runCleanup, hc, hn, realtimeEffect]

theorem step_init_of_not_channelsResult (v : Variant) (session : Session) (e : Event)
    (h : ∀ r, e ≠ .channelsResult r) : step v session World.init e = World.init := by
  cases e with
  | channelsResult r => exact absurd rfl (h r)
  | click c => simp [step, World.init, ChatState.init]
  | messagesResult cid r => simp [step, World.init]
  | change ch => simp [step, World.init, deliver, ChatState.init]
  | input text => simp [step, World.init, ChatState.init]
  | submit e => simp [step, World.init, ChatState.init]

theorem fresh_run (v : Variant) (session : Session) (es : List Event)
    (h : (run v session es).channelsPending = true) : run v session es = World.init := by
  have key : ∀ (l : List Event) (w : World),
      (w.channelsPending = true → w = World.init) →
      ((l.foldl (step v session) w).channelsPending = true →
        l.foldl (step v session) w = World.init) := by
    intro l
    induction l with
    | nil => intro w hw; exact hw
    | cons e l ih =>
      intro w hw
      apply ih
      intro hp
      cases e with
      | channelsResult r =>
        simp only [step] at hp ⊢
        split at hp
        · rw [commit_channelsPending] at hp
          simp at hp
        · next hnp => exact absurd hp hnp
      | click c =>
        have hpw : w.channelsPending = true := by
          simp only [step] at hp
          split at hp
          · rw [commit_channelsPending] at hp
            exact hp
          · exact hp
        rw [hw hpw]
        exact step_init_of_not_channelsResult v session _ (fun r => by simp)
      | messagesResult cid r =>
        have hpw : w.channelsPending = true := by
          simp only [step] at hp
          split at hp <;> exact hp
        rw [hw hpw]
        exact step_init_of_not_channelsResult v session _ (fun r => by simp)
      | change ch =>
        have hpw : w.channelsPending = true := hp
        rw [hw hpw]
        exact step_init_of_not_channelsResult v session _ (fun r => by simp)
      | input text =>
        have hpw : w.channelsPending = true := by
          simp only [step] at hp
          split at hp <;> exact hp
        rw [hw hpw]
        exact step_init_of_not_channelsResult v session _ (fun r => by simp)
      | submit e =>
        have hpw : w.channelsPending = true := by
          simp only [step] at hp
          split at hp <;> exact hp
        rw [hw hpw]
        exact step_init_of_not_channelsResult v session _ (fun r => by simp)
  exact key es World.init (fun _ => rfl) h

/-- C9: the answer to a messages query replaces the message list by the rows returned when
the query succeeded and changes nothing else; it leaves the whole state as it was when the
query failed; an answer to a pending query is handled this way in every state; and while no
channel is active the messages effect issues no query: the only query made is the one for the
channel list. -/
theorem C9_fetch_replaces_or_keeps (v : Variant) (session : Session) :
    (∀ (st : ChatState) (r : QueryResult Message), r.error = none →
      fetchMessagesThen st r = { st with messages := r.data }) ∧
    (∀ (st : ChatState) (r : QueryResult Message), r.error ≠ none →
      fetchMessagesThen st r = st) ∧
    (∀ (w : World) cid r, cid ∈ w.messagesPending →
      (step v session w (.messagesResult cid r)).ui = fetchMessagesThen w.ui r) ∧
    fetchMessagesEffect none = [] ∧
    (∀ es, (run v session es).ui.activeChannel = none →
      ∀ q, BackendCall.select q ∈ (run v session es).trace → q = channelsQuery) := by
  refine ⟨?_, ?_, ?_, rfl, ?_⟩
  · intro st r h
    simp [fetchMessagesThen, h]
  · intro st r h
    cases he : r.error with
    | none => exact absurd he h
    | some e => simp [fetchMessagesThen, he]
  · intro w cid r h
    simp [step, h]
  · intro es hn q hq
    rw [(idle_run v session es hn).1] at hq
    simpa [chatLayoutMountCalls] using hq

theorem C9_fetch_replaces_or_keeps_witness :
    (step .appJsx sessionU (run .appJsx sessionU [.channelsResult ⟨[channelA], none⟩])
      (.messagesResult "A" ⟨[messageA], none⟩)).ui =
      fetchMessagesThen (run .appJsx sessionU [.channelsResult ⟨[channelA], none⟩]).ui
        ⟨[messageA], none⟩ ∧
    fetchMessagesThen ⟨[channelA], some channelA, [messageB], ""⟩ ⟨[messageA], none⟩ =
      ⟨[channelA], some channelA, [messageA], ""⟩ ∧
    fetchMessagesThen ⟨[channelA], some channelA, [messageB], ""⟩ ⟨[], some ⟨"down"⟩⟩ =
      ⟨[channelA], some channelA, [messageB], ""⟩ :=
  ⟨(C9_fetch_replaces_or_keeps .appJsx sessionU).2.2.1 _ "A" ⟨[messageA], none⟩ (by decide),
   (C9_fetch_replaces_or_keeps .appJsx sessionU).1 _ ⟨[messageA], none⟩ rfl,
   (C9_fetch_replaces_or_keeps .appJsx sessionU).2.1 _ ⟨[], some ⟨"down"⟩⟩ (by simp)⟩

/-- C10: when the answer to the channels query arrives (the query is still pending), the
channel list is empty and no channel is active; on error both stay so, on success the channel
list becomes the rows in the order returned and the active channel becomes the first row, or
stays unset when there is no row. -/
theorem C10_channels_result (v : Variant) (session : Session) (es : List Event)
    (r : QueryResult Channel) (hp : (run v session es).channelsPending = true) :
    ((run v session es).ui.channels = [] ∧ (run v session es).ui.activeChannel = none) ∧
    (r.error ≠ none →
      (step v session (run v session es) (.channelsResult r)).ui.channels = [] ∧
      (step v session (run v session es) (.channelsResult r)).ui.activeChannel = none) ∧
    (r.error = none →
      (step v session (run v session es) (.channelsResult r)).ui.channels = r.data ∧
      (step v session (run v session es) (.channelsResult r)).ui.activeChannel = r.data.head? ∧
      (r.data = [] →
        (step v session (run v session es) (.channelsResult r)).ui.activeChannel = none) ∧
      (∀ c cs, r.data = c :: cs →
        (step v session (run v session es) (.channelsResult r)).ui.activeChannel = some c)) := by
  have hw := fresh_run v session es hp
  have hui : (step v session (run v session es) (.channelsResult r)).ui =
      fetchChannelsThen ChatState.init r := by
    rw [hw]
    simp only [step, World.init, if_true]
    rw [commit_ui]
  rw [hui]
  refine ⟨by rw [hw]; exact ⟨rfl, rfl⟩, ?_, ?_⟩
  · intro h
    cases he : r.error with
    | none => exact absurd he h
    | some e => simp [fetchChannelsThen, he, ChatState.init]
  · intro h
    cases hd : r.data with
    | nil => simp [fetchChannelsThen, h, hd, ChatState.init]
    | cons c cs => simp [fetchChannelsThen, h, hd, ChatState.init]

theorem C10_channels_result_witness :
    (step .appJsx sessionU (run .appJsx sessionU [])
      (.channelsResult ⟨[channelA, channelB], none⟩)).ui.channels = [channelA, channelB] ∧
    (step .appJsx sessionU (run .appJsx sessionU [])
      (.channelsResult ⟨[channelA, channelB], none⟩)).ui.activeChannel = some channelA :=
  ⟨((C10_channels_result .appJsx sessionU [] ⟨[channelA, channelB], none⟩ rfl).2.2 rfl).1,
   ((C10_channels_result .appJsx sessionU [] ⟨[channelA, channelB], none⟩ rfl).2.2 rfl).2.2.2
      channelA [channelB] rfl⟩

/-! ## Session restore and module evaluation -/

/-- C11, as stated, fails: when the promise of `getSession()` is rejected the callback is not
run, the rejection is caught by nothing, and the state stays the initial one, which renders the
spinner and not the login view. -/
theorem C11_rejected_getSession_stays_loading :
    (getSessionSettled AppState.init (.rejected ⟨"network down"⟩)).state = AppState.init ∧
    (getSessionSettled AppState.init (.rejected ⟨"network down"⟩)).state.loading = true ∧
    (getSessionSettled AppState.init (.rejected ⟨"network down"⟩)).unhandledRejection = true ∧
    (App .appJsx ⟨some "u", some "k"⟩
      (getSessionSettled AppState.init (.rejected ⟨"network down"⟩)).state).view =
        .loadingSpinner := by
  decide

/-- C11, amended: when the promise of `getSession()` is fulfilled with a data object, whatever
its `error` key, the state becomes `session = data.session`, `loading = false` and nothing is
thrown, so with both variables present the login view is rendered when the session is null and
the chat view when it is not; a rejected promise leaves the state as it was and its rejection
unhandled. -/
theorem C11_session_restore_when_fulfilled (env : Env) (st : AppState) (d : SessionData)
    (err : Option BackendError)
    (hu : truthy env.VITE_SUPABASE_URL = true) (hk : truthy env.VITE_SUPABASE_ANON_KEY = true) :
    getSessionSettled st (.fulfilled (some d) err) = ⟨⟨d.session, false⟩, false⟩ ∧
    (d.session = none →
      (App .appJsx env (getSessionSettled st (.fulfilled (some d) err)).state).view =
        .authComponent) ∧
    (∀ s, d.session = some s →
      (App .appJsx env (getSessionSettled st (.fulfilled (some d) err)).state).view =
        .chatLayout s.user.id s) ∧
    (∀ reason, getSessionSettled st (.rejected reason) = ⟨st, true⟩) := by
  refine ⟨rfl, ?_, ?_, fun _ => rfl⟩
  · intro h
    simp [getSessionSettled, getSessionThen, App, hu, hk, h]
  · intro s h
    simp [getSessionSettled, getSessionThen, App, hu, hk, h]

theorem C11_session_restore_when_fulfilled_witness :
    getSessionSettled AppState.init (.fulfilled (some ⟨none⟩) (some ⟨"expired"⟩)) =
      ⟨⟨none, false⟩, false⟩ ∧
    (App .appJsx ⟨some "u", some "k"⟩
      (getSessionSettled AppState.init
        (.fulfilled (some ⟨none⟩) (some ⟨"expired"⟩))).state).view = .authComponent :=
  ⟨(C11_session_restore_when_fulfilled ⟨some "u", some "k"⟩ AppState.init ⟨none⟩
      (some ⟨"expired"⟩) (by decide) (by decide)).1,
   (C11_session_restore_when_fulfilled ⟨some "u", some "k"⟩ AppState.init ⟨none⟩
      (some ⟨"expired"⟩) (by decide) (by decide)).2.1 rfl⟩

/-- C14 (`App.jsx`): the evaluation of the module calls `createClient` with the two values
whatever they are; with the URL undefined and the key empty the call is
`createClient(undefined, "")`. -/
theorem C14_createClient_called_with_missing_values :
    (∀ env, moduleInit .appJsx env =
      [.createClient env.VITE_SUPABASE_URL env.VITE_SUPABASE_ANON_KEY]) ∧
    truthy none = false ∧ truthy (some "") = false ∧
    moduleInit .appJsx ⟨none, some ""⟩ = [.createClient none (some "")] ∧
    (App .appJsx ⟨none, some ""⟩ AppState.init).view = .missingKeysError := by
  refine ⟨?_, by decide, by decide, by decide, by decide⟩
  intro env
  simp [moduleInit]

/-! ## Order and provenance of the message list -/

theorem fetchChannelsThen_messages (st : ChatState) (r : QueryResult Channel) :
    (fetchChannelsThen st r).messages = st.messages := by
  unfold fetchChannelsThen
  cases r.error with
  | some e => rfl
  | none =>
    simp only
    split <;> rfl

theorem deliver_nonDecreasing (subs : List Subscription) (ch : Change) (ms : List Message)
    (h : nonDecreasing ms)
    (hle : (∃ s ∈ subs, delivers s ch = true) → ∀ m ∈ ms, m.created_at ≤ ch.new.created_at) :
    nonDecreasing (deliver subs ch ms) := by
  induction subs generalizing ms with
  | nil => simpa [deliver] using h
  | cons s ss ih =>
    have hstep : deliver (s :: ss) ch ms =
        deliver ss ch (if delivers s ch = true then onInsert ms ch else ms) := by
      simp [deliver]
    rw [hstep]
    by_cases hd : delivers s ch = true
    · have hall : ∀ m ∈ ms, m.created_at ≤ ch.new.created_at :=
        hle ⟨s, List.mem_cons_self _ _, hd⟩
      simp only [hd, if_true]
      apply ih
      · unfold nonDecreasing onInsert
        rw [List.pairwise_append]
        refine ⟨h, by simp, ?_⟩
        intro a ha b hb
        simp only [List.mem_singleton] at hb
        subst hb
        exact hall a ha
      · intro _ m hm
        simp only [onInsert, List.mem_append, List.mem_singleton] at hm
        rcases hm with hm | hm
        · exact hall m hm
        · subst hm
          exact le_refl _
    · simp only [hd]
      apply ih _ h
      rintro ⟨t, ht, htd⟩
      exact hle ⟨t, List.mem_cons_of_mem _ ht, htd⟩

theorem step_nonDecreasing (v : Variant) (session : Session) (w : World) (e : Event)
    (h : nonDecreasing w.ui.messages) (hf : fetchOrdered e) (hd : feedOrdered w e) :
    nonDecreasing (step v session w e).ui.messages := by
  cases e with
  | channelsResult r =>
    simp only [step]
    split
    · rw [commit_ui, fetchChannelsThen_messages]
      exact h
    · exact h
  | click c =>
    simp only [step]
    split
    · rw [commit_ui]
      exact h
    · exact h
  | messagesResult cid r =>
    simp only [step]
    split
    · cases he : r.error with
      | some e => simpa [fetchMessagesThen, he] using h
      | none =>
        have := hf he
        simpa [fetchMessagesThen, he] using this
    · exact h
  | change ch => exact deliver_nonDecreasing w.subs ch w.ui.messages h hd
  | input text =>
    simp only [step]
    split <;> exact h
  | submit e =>
    simp only [step]
    split
    · rw [(handleSendMessage_frame v session w.ui e).2.2]
      exact h
    · exact h

theorem foldl_nonDecreasing (v : Variant) (session : Session) (es : List Event) (w : World)
    (h : nonDecreasing w.ui.messages) (hf : fetchesOrdered es)
    (hd : feedOrderedRun v session w es) :
    nonDecreasing (es.foldl (step v session) w).ui.messages := by
  induction es generalizing w with
  | nil => exact h
  | cons e es ih =>
    simp only [List.foldl_cons]
    apply ih
    · exact step_nonDecreasing v session w e h (hf e (List.mem_cons_self _ _)) hd.1
    · intro x hx
      exact hf x (List.mem_cons_of_mem _ hx)
    · exact hd.2

/-- C12, as stated, fails: the fetch returns one row created at 5, the feed then delivers a row
of the same channel created at 3, and the handler appends it: the list is no longer
non-decreasing although every fetch returned ordered rows. -/
theorem C12_feed_event_breaks_order :
    fetchesOrdered
      [.channelsResult ⟨[channelA], none⟩, .messagesResult "A" ⟨[messageA], none⟩,
       .change (insertOf messageOld)] ∧
    (run .appJsx sessionU
      [.channelsResult ⟨[channelA], none⟩, .messagesResult "A" ⟨[messageA], none⟩,
       .change (insertOf messageOld)]).ui.messages = [messageA, messageOld] ∧
    ¬ nonDecreasing (run .appJsx sessionU
      [.channelsResult ⟨[channelA], none⟩, .messagesResult "A" ⟨[messageA], none⟩,
       .change (insertOf messageOld)]).ui.messages := by
  refine ⟨?_, by decide, by decide⟩
  intro e he
  simp only [List.mem_cons, List.mem_singleton, List.not_mem_nil, or_false] at he
  rcases he with he | he | he
  · subst he
    trivial
  · subst he
    intro _
    show nonDecreasing [messageA]
    decide
  · subst he
    trivial

/-- C12, amended: when every successful fetch returns its rows in non-decreasing order of
`created_at` and every change-feed event that is delivered carries a row not older than any
message held when it arrives, the message list is non-decreasing in every reachable state. -/
theorem C12_order_kept_when_feed_ordered (v : Variant) (session : Session) (es : List Event)
    (hf : fetchesOrdered es) (hd : feedOrderedRun v session World.init es) :
    nonDecreasing (run v session es).ui.messages := by
  apply foldl_nonDecreasing v session es World.init _ hf hd
  simp [nonDecreasing, World.init, ChatState.init]

theorem C12_order_kept_when_feed_ordered_witness :
    nonDecreasing (run .appJsx sessionU
      [.channelsResult ⟨[channelA], none⟩, .messagesResult "A" ⟨[messageOld], none⟩,
       .change (insertOf messageA)]).ui.messages ∧
    (run .appJsx sessionU
      [.channelsResult ⟨[channelA], none⟩, .messagesResult "A" ⟨[messageOld], none⟩,
       .change (insertOf messageA)]).ui.messages = [messageOld, messageA] := by
  refine ⟨C12_order_kept_when_feed_ordered .appJsx sessionU
      [.channelsResult ⟨[channelA], none⟩, .messagesResult "A" ⟨[messageOld], none⟩,
       .change (insertOf messageA)] ?_ ?_, by decide⟩
  · intro e he
    simp only [List.mem_cons, List.mem_singleton, List.not_mem_nil, or_false] at he
    rcases he with he | he | he
    · subst he
      trivial
    · subst he
      intro _
      show nonDecreasing [messageOld]
      decide
    · subst he
      trivial
  · refine ⟨trivial, trivial, ?_, trivial⟩
    intro _ m hm
    have hms : (step .appJsx sessionU
        (step .appJsx sessionU World.init (.channelsResult ⟨[channelA], none⟩))
        (.messagesResult "A" ⟨[messageOld], none⟩)).ui.messages = [messageOld] := by
      decide
    rw [hms, List.mem_singleton] at hm
    subst hm
    decide

/-- C13: the fetch for channel `A` is started when `A` becomes active; the user switches to
`B`, the fetch of `B` is answered, and then the fetch of `A` is answered: the active channel is
`B` and the message list is the rows fetched for `A`.  The answer to a pending query replaces
the list whatever channel is active, so that every held message belongs to the active channel
is not an invariant. -/
theorem C13_stale_fetch_overwrites :
    ((run .appJsx sessionU [.channelsResult ⟨[channelA, channelB], none⟩]).ui.activeChannel =
        some channelA ∧
      (run .appJsx sessionU [.channelsResult ⟨[channelA, channelB], none⟩]).messagesPending =
        [channelA.id] ∧
      BackendCall.select (messagesQuery channelA) ∈
        (run .appJsx sessionU [.channelsResult ⟨[channelA, channelB], none⟩]).trace) ∧
    ((run .appJsx sessionU
        [.channelsResult ⟨[channelA, channelB], none⟩, .click channelB,
         .messagesResult "B" ⟨[messageB], none⟩]).ui.activeChannel = some channelB ∧
      (run .appJsx sessionU
        [.channelsResult ⟨[channelA, channelB], none⟩, .click channelB,
         .messagesResult "B" ⟨[messageB], none⟩]).ui.messages = [messageB] ∧
      (run .appJsx sessionU
        [.channelsResult ⟨[channelA, channelB], none⟩, .click channelB,
         .messagesResult "B" ⟨[messageB], none⟩]).messagesPending = [channelA.id]) ∧
    ((run .appJsx sessionU
        [.channelsResult ⟨[channelA, channelB], none⟩, .click channelB,
         .messagesResult "B" ⟨[messageB], none⟩,
         .messagesResult "A" ⟨[messageA], none⟩]).ui.activeChannel = some channelB ∧
      (run .appJsx sessionU
        [.channelsResult ⟨[channelA, channelB], none⟩, .click channelB,
         .messagesResult "B" ⟨[messageB], none⟩,
         .messagesResult "A" ⟨[messageA], none⟩]).ui.messages = [messageA] ∧
      messageA.channel_id = channelA.id ∧ messageA.channel_id ≠ channelB.id) ∧
    (∀ (v : Variant) (session : Session) (w : World) cid (r : QueryResult Message),
      cid ∈ w.messagesPending → r.error = none →
      (step v session w (.messagesResult cid r)).ui.messages = r.data ∧
      (step v session w (.messagesResult cid r)).ui.activeChannel = w.ui.activeChannel) ∧
    ¬ (∀ (es : List Event) (c : Channel),
      (run .appJsx sessionU es).ui.activeChannel = some c →
      ∀ m ∈ (run .appJsx sessionU es).ui.messages, m.channel_id = c.id) := by
  refine ⟨by decide, by decide, by decide, ?_, ?_⟩
  · intro v session w cid r hp he
    simp [step, hp, fetchMessagesThen, he]
  · intro hall
    have h := hall
      [.channelsResult ⟨[channelA, channelB], none⟩, .click channelB,
       .messagesResult "B" ⟨[messageB], none⟩, .messagesResult "A" ⟨[messageA], none⟩]
      channelB (by decide) messageA (by decide)
    exact absurd h (by decide)

end DC
